import Mathlib

/-!
Verification of the core components of the penguin walking simulation:
the procedural heightfield, the footprint trail, the colony agent
finite-state machine, the visibility fader, and the mountain mesh
generator.  Numeric quantities are modelled over the real numbers
(footprint opacities over the rationals, where the source performs only
rational arithmetic on them).
-/

/-- Two-dimensional vector, mirroring THREE.Vector2. -/
structure Vec2 where
  x : ℝ
  y : ℝ

/-- Length of a 2D vector (THREE.Vector2.length). -/
noncomputable def Vec2.length (v : Vec2) : ℝ :=
  Real.sqrt (v.x * v.x + v.y * v.y)

/-- THREE.Vector2.normalize: divideScalar(this.length() || 1), i.e. each
component is multiplied by 1/length, with a zero length replaced by 1
(leaving the zero vector unchanged). -/
noncomputable def Vec2.normalize (v : Vec2) : Vec2 :=
  if v.length = 0 then v else ⟨v.x * (1 / v.length), v.y * (1 / v.length)⟩

/-- Three-dimensional vector, mirroring THREE.Vector3. -/
structure Vec3 where
  x : ℝ
  y : ℝ
  z : ℝ

/-- Componentwise addition (THREE.Vector3.add). -/
noncomputable def Vec3.add (a b : Vec3) : Vec3 :=
  ⟨a.x + b.x, a.y + b.y, a.z + b.z⟩

/-- Componentwise subtraction (THREE.Vector3.sub). -/
noncomputable def Vec3.sub (a b : Vec3) : Vec3 :=
  ⟨a.x - b.x, a.y - b.y, a.z - b.z⟩

/-- Scalar multiplication (THREE.Vector3.multiplyScalar). -/
noncomputable def Vec3.smul (v : Vec3) (s : ℝ) : Vec3 :=
  ⟨v.x * s, v.y * s, v.z * s⟩

/-- Length of a 3D vector (THREE.Vector3.length). -/
noncomputable def Vec3.length (v : Vec3) : ℝ :=
  Real.sqrt (v.x * v.x + v.y * v.y + v.z * v.z)

/-- THREE.Vector3.normalize: divideScalar(this.length() || 1). -/
noncomputable def Vec3.normalize (v : Vec3) : Vec3 :=
  let l := v.length
  if l = 0 then v else v.smul (1 / l)

/-- Distance between two points (THREE.Vector3.distanceTo). -/
noncomputable def Vec3.distanceTo (a b : Vec3) : ℝ :=
  (a.sub b).length

/-- Environment.getGroundHeight from src/Environment.ts (lines 201-215):
the runtime heightfield query matching the ground vertex shader. -/
noncomputable def Environment.getGroundHeight (x z : ℝ) : ℝ :=
  let h0 := Real.sin (x * 0.05) * Real.cos (z * 0.04) * 0.4
  let h1 := h0 + Real.sin (x * 0.02) * 0.2
  let windDir := Vec2.normalize ⟨1.0, 0.5⟩
  let windCoord := x * windDir.x + z * windDir.y
  let perpCoord := x * (-windDir.y) + z * windDir.x
  let h2 := h1 + Real.sin (windCoord * 0.5) * Real.sin (perpCoord * 5.0) * 0.05
  h2 + Real.sin (windCoord * 0.2) * 0.1

/-- Penguin.getGroundHeight from Penguin.ts (lines 218-232): the copy of
the heightfield used for footprint placement. -/
noncomputable def Penguin.getGroundHeight (x z : ℝ) : ℝ :=
  let h0 := Real.sin (x * 0.05) * Real.cos (z * 0.04) * 0.4
  let h1 := h0 + Real.sin (x * 0.02) * 0.2
  let windDir := Vec2.normalize ⟨1.0, 0.5⟩
  let windCoord := x * windDir.x + z * windDir.y
  let perpCoord := x * (-windDir.y) + z * windDir.x
  let h2 := h1 + Real.sin (windCoord * 0.5) * Real.sin (perpCoord * 5.0) * 0.05
  h2 + Real.sin (windCoord * 0.2) * 0.1

/-- A footprint decal as created by Penguin.spawnFootprint: world position,
z-rotation and the material opacity that Penguin.updateFootprints decays.
The source stores these on a THREE.Mesh and its cloned material; only the
fields the trail logic reads or writes are modelled. -/
structure Footprint where
  posX : ℝ
  posY : ℝ
  posZ : ℝ
  rotZ : ℝ
  opacity : ℚ

/-- The footprint built inside Penguin.spawnFootprint: position copied from
the argument with y replaced by getGroundHeight(x, z) + 0.03, z-rotation
(isLeft ? 0.2 : -0.2) + π, and material opacity 1.0. -/
noncomputable def mkFootprint (pos : Vec3) (isLeft : Bool) : Footprint :=
  { posX := pos.x
    posY := Penguin.getGroundHeight pos.x pos.z + 0.03
    posZ := pos.z
    rotZ := (if isLeft then (0.2 : ℝ) else -0.2) + Real.pi
    opacity := 1 }

/-- Penguin.spawnFootprint (Penguin.ts lines 234-277). `loaded` models the
guard `if (!this.footprintTexture || !this.footprintNormal) return;`: when the
textures are not yet loaded nothing is spawned.  Otherwise the new footprint
is pushed and, if the length then exceeds 200, the oldest entry (index 0) is
shifted off. -/
noncomputable def spawnFootprint (loaded : Bool) (trail : List Footprint)
    (pos : Vec3) (isLeft : Bool) : List Footprint :=
  if loaded = false then trail
  else
    let t := trail ++ [mkFootprint pos isLeft]
    if 200 < t.length then t.tail else t

/-- Penguin.updateFootprints (Penguin.ts lines 201-216): every footprint's
opacity is reduced by dt·0.02 and any footprint whose new opacity is ≤ 0 is
removed from the scene and spliced out of the array.  The backward iteration
with splice removes exactly those entries, keeping the rest in order, which
is what filterMap expresses. -/
def updateFootprints (dt : ℚ) (trail : List Footprint) : List Footprint :=
  trail.filterMap (fun fp =>
    let o := fp.opacity - dt * 0.02
    if o ≤ 0 then none else some { fp with opacity := o })

/-- One externally triggered operation on the footprint trail: a spawn from
the stride logic or a decay pass from Penguin.update. -/
inductive TrailOp where
  | spawn (pos : Vec3) (isLeft : Bool)
  | decay (dt : ℚ)

/-- Apply a trail operation (with footprint textures loaded, the operative
case). -/
noncomputable def applyTrailOp (trail : List Footprint) : TrailOp → List Footprint
  | .spawn pos isLeft => spawnFootprint true trail pos isLeft
  | .decay dt => updateFootprints dt trail

/-- Run a sequence of trail operations from the initial empty trail. -/
noncomputable def runTrailOps (ops : List TrailOp) : List Footprint :=
  ops.foldl applyTrailOp []

/-- The four behavioral states of a colony agent (PenguinState in
ColonyPenguin.ts). -/
inductive PenguinState where
  | idle
  | walking
  | turning
  | looking
deriving DecidableEq

/-- THREE.MathUtils.lerp(x, y, t) = x + (y - x) * t (not clamped). -/
noncomputable def lerp (x y t : ℝ) : ℝ :=
  x + (y - x) * t

/-- A colony agent (ColonyPenguin.ts).  pos, rotX, rotY, rotZ mirror
mesh.position and mesh.rotation (position and mesh.position are the same
object in the source); the remaining fields mirror the private fields of the
class.  opacity and visible mirror the material opacity and mesh.visible
written by setOpacity. -/
structure ColonyPenguin where
  pos : Vec3
  rotX : ℝ
  rotY : ℝ
  rotZ : ℝ
  state : PenguinState
  timer : ℝ
  stateDuration : ℝ
  walkTime : ℝ
  waddleSpeed : ℝ
  moveSpeed : ℝ
  targetRotation : ℝ
  currentRotation : ℝ
  headTilt : ℝ
  headTiltTarget : ℝ
  opacity : ℝ
  visible : Prop

/-- ColonyPenguin.pickNewState (lines 46-66) with the Math.random() draws
injected: r selects the branch, u is the draw used for the duration and v the
draw used for the branch's side-effect parameter (target rotation or head
tilt).  The timer is reset to 0. -/
noncomputable def pickNewState (r u v : ℝ) (p : ColonyPenguin) : ColonyPenguin :=
  if r < 0.6 then
    { p with state := .idle, stateDuration := 2 + u * 4, timer := 0 }
  else if r < 0.85 then
    { p with state := .walking, stateDuration := 1.5 + u * 3,
             targetRotation := p.currentRotation + (v - 0.5) * 1.5, timer := 0 }
  else if r < 0.95 then
    { p with state := .turning, stateDuration := 1 + u * 2,
             targetRotation := v * Real.pi * 2, timer := 0 }
  else
    { p with state := .looking, stateDuration := 2 + u * 2,
             headTiltTarget := (v - 0.5) * 0.5, timer := 0 }

/-- The forward unit vector of updateWalking: (0,0,1) rotated about the
Y axis by the facing angle, i.e. (sin θ, 0, cos θ). -/
noncomputable def forwardVec (θ : ℝ) : Vec3 :=
  ⟨Real.sin θ, 0, Real.cos θ⟩

/-- The separation force of updateWalking (lines 111-119): for every other
penguin closer than 1.0, add the unit vector away from it scaled by
0.5/(dist+0.1).  `others` holds the positions of the other penguins (the
source iterates the full list and skips itself by object identity). -/
noncomputable def separationVec (pos : Vec3) (others : List Vec3) : Vec3 :=
  others.foldl (fun acc q =>
    let dist := pos.distanceTo q
    if dist < 1.0 then acc.add (((pos.sub q).normalize).smul (0.5 / (dist + 0.1)))
    else acc) ⟨0, 0, 0⟩

/-- The cohesion force of updateWalking (lines 121-125): when the distance to
the colony center exceeds 5, the unit vector toward the center scaled by
0.1, else zero. -/
noncomputable def cohesionVec (pos : Vec3) (center : Vec3) : Vec3 :=
  if 5 < (center.sub pos).length then ((center.sub pos).normalize).smul 0.1
  else ⟨0, 0, 0⟩

/-- The normalized steering direction of updateWalking (line 127):
normalize(forward + separation + cohesion). -/
noncomputable def walkDirection (cur : ℝ) (pos : Vec3) (center : Vec3)
    (others : List Vec3) : Vec3 :=
  ((forwardVec cur).add ((separationVec pos others).add (cohesionVec pos center))).normalize

/-- ColonyPenguin.updateIdle (lines 95-98).  `now` models Date.now(). -/
noncomputable def updateIdle (dt now : ℝ) (p : ColonyPenguin) : ColonyPenguin :=
  { p with rotZ := lerp p.rotZ (Real.sin (now * 0.001) * 0.02) (dt * 2) }

/-- ColonyPenguin.updateWalking (lines 100-134): advance walkTime, lerp the
facing toward the target at rate dt·2, move by moveSpeed·dt along the
normalized steering direction, apply the waddle roll and add the
|cos(walkTime)|·0.03 bob to y. -/
noncomputable def updateWalking (dt : ℝ) (center : Vec3) (others : List Vec3)
    (p : ColonyPenguin) : ColonyPenguin :=
  let walkTime := p.walkTime + dt * p.waddleSpeed
  let cur := lerp p.currentRotation p.targetRotation (dt * 2)
  let dir := walkDirection cur p.pos center others
  let newPos := p.pos.add (dir.smul (p.moveSpeed * dt))
  { p with walkTime := walkTime, currentRotation := cur, rotY := cur,
           rotZ := Real.sin walkTime * 0.08,
           pos := ⟨newPos.x, newPos.y + |Real.cos walkTime| * 0.03, newPos.z⟩ }

/-- ColonyPenguin.updateTurning (lines 136-142): lerp the facing toward the
target at rate dt·3 and set the roll wobble from the wall clock
(Date.now()·0.01). -/
noncomputable def updateTurning (dt now : ℝ) (p : ColonyPenguin) : ColonyPenguin :=
  let cur := lerp p.currentRotation p.targetRotation (dt * 3)
  { p with currentRotation := cur, rotY := cur,
           rotZ := Real.sin (now * 0.01) * 0.03 }

/-- ColonyPenguin.updateLooking (lines 144-148): lerp the head tilt toward
its target at rate dt·2 and express it as the body pitch rotation. -/
noncomputable def updateLooking (dt : ℝ) (p : ColonyPenguin) : ColonyPenguin :=
  let h := lerp p.headTilt p.headTiltTarget (dt * 2)
  { p with headTilt := h, rotX := h }

/-- ColonyPenguin.update (lines 68-93): advance the timer, pick a new state
when the timer reaches the state duration (d bundles the injected random
draws), run the state handler, and finally pin y to
sin(x·0.1)·cos(z·0.1)·0.5 at the current (x, z). -/
noncomputable def ColonyPenguin.update (dt : ℝ) (center : Vec3)
    (others : List Vec3) (now : ℝ) (d : ℝ × ℝ × ℝ) (p : ColonyPenguin) :
    ColonyPenguin :=
  let p1 := { p with timer := p.timer + dt }
  let p2 := if p1.stateDuration ≤ p1.timer then pickNewState d.1 d.2.1 d.2.2 p1 else p1
  let p3 :=
    match p2.state with
    | .idle => updateIdle dt now p2
    | .walking => updateWalking dt center others p2
    | .turning => updateTurning dt now p2
    | .looking => updateLooking dt p2
  { p3 with pos := ⟨p3.pos.x,
                    Real.sin (p3.pos.x * 0.1) * Real.cos (p3.pos.z * 0.1) * 0.5,
                    p3.pos.z⟩ }

/-- ColonyPenguin.setOpacity (lines 150-166): write the opacity to every
material and mark the mesh visible exactly when opacity > 0.01. -/
noncomputable def setOpacity (o : ℝ) (p : ColonyPenguin) : ColonyPenguin :=
  { p with opacity := o, visible := 0.01 < o }

/-- THREE.MathUtils.smoothstep(x, min, max): 0 below min, 1 above max, else
the cubic 3t² − 2t³ of the normalized coordinate. -/
noncomputable def smoothstep (x min max : ℝ) : ℝ :=
  if x ≤ min then 0
  else if max ≤ x then 1
  else
    let t := (x - min) / (max - min)
    t * t * (3 - 2 * t)

/-- The opacity computed by ColonyManager.update (lines 62-67):
1 − smoothstep(|playerPos|, 5, 30); the colony center is the origin. -/
noncomputable def colonyOpacity (playerPos : Vec3) : ℝ :=
  1.0 - smoothstep playerPos.length 5 30

/-- The fading phase of ColonyManager.update (line 68): the same opacity is
applied to every colony penguin. -/
noncomputable def ColonyManager.applyFade (playerPos : Vec3)
    (penguins : List ColonyPenguin) : List ColonyPenguin :=
  penguins.map (setOpacity (colonyOpacity playerPos))

/-- A concrete walking agent at the origin facing along +x (facing angle
π/2), used to evaluate the walking integration at explicit inputs. -/
noncomputable def walkAgent : ColonyPenguin :=
  { pos := ⟨0, 0, 0⟩, rotX := 0, rotY := 0, rotZ := 0, state := .walking,
    timer := 0, stateDuration := 2, walkTime := 0, waddleSpeed := 5,
    moveSpeed := 1, targetRotation := Real.pi / 2,
    currentRotation := Real.pi / 2, headTilt := 0, headTiltTarget := 0,
    opacity := 1, visible := True }

/-- A concrete turning agent at the origin, used to evaluate the wall-clock
dependence of the turning roll at explicit inputs. -/
noncomputable def turnAgent : ColonyPenguin :=
  { pos := ⟨0, 0, 0⟩, rotX := 0, rotY := 0, rotZ := 0, state := .turning,
    timer := 0, stateDuration := 2, walkTime := 0, waddleSpeed := 5,
    moveSpeed := 1, targetRotation := 0, currentRotation := 0, headTilt := 0,
    headTiltTarget := 0, opacity := 1, visible := True }

/-- Equality of two colony agents on every field except the body roll rotZ
(the only field written from the wall clock). -/
def eqExceptRoll (a b : ColonyPenguin) : Prop :=
  a.pos.x = b.pos.x ∧ a.pos.y = b.pos.y ∧ a.pos.z = b.pos.z ∧
  a.rotX = b.rotX ∧ a.rotY = b.rotY ∧ a.state = b.state ∧
  a.timer = b.timer ∧ a.stateDuration = b.stateDuration ∧
  a.walkTime = b.walkTime ∧ a.waddleSpeed = b.waddleSpeed ∧
  a.moveSpeed = b.moveSpeed ∧ a.targetRotation = b.targetRotation ∧
  a.currentRotation = b.currentRotation ∧ a.headTilt = b.headTilt ∧
  a.headTiltTarget = b.headTiltTarget ∧ a.opacity = b.opacity ∧
  (a.visible ↔ b.visible)

/-- A concrete footprint with opacity 1/2, used to evaluate the decay pass at
explicit inputs. -/
noncomputable def fpHalf : Footprint :=
  { posX := 0, posY := 0, posZ := 0, rotZ := 0, opacity := 1/2 }

/-- GLSL-style fract: s − floor(s), as computed in the mountain noise
(`s - Math.floor(s)`). -/
noncomputable def fract (s : ℝ) : ℝ :=
  s - ⌊s⌋

/-- The seeded hash `random` inside Environment.createMountainMesh (lines
280-283): fract(sin((x+seed)·12.9898 + (z+seed)·78.233)·43758.5453). -/
noncomputable def mountainRandom (seed x z : ℝ) : ℝ :=
  fract (Real.sin ((x + seed) * 12.9898 + (z + seed) * 78.233) * 43758.5453)

/-- The bilinear value noise `noise` inside createMountainMesh (lines
284-291), interpolating the seeded hash on the integer lattice. -/
noncomputable def mountainNoise (seed x z : ℝ) : ℝ :=
  let i : ℝ := ⌊x⌋
  let j : ℝ := ⌊z⌋
  let u := x - i
  let v := z - j
  (mountainRandom seed i j * (1 - u) + mountainRandom seed (i + 1) j * u) * (1 - v) +
    (mountainRandom seed i (j + 1) * (1 - u) + mountainRandom seed (i + 1) (j + 1) * u) * v

/-- The fbm loop inside createMountainMesh (lines 292-302): octave o
contributes noise(x·2^o, z·2^o)·0.5^o, 2^o and 0.5^o being the loop's
running freq and amp products. -/
noncomputable def mountainFbm (seed x z : ℝ) (octaves : ℕ) : ℝ :=
  (List.range octaves).foldl
    (fun total o => total + mountainNoise seed (x * 2 ^ o) (z * 2 ^ o) * (0.5 : ℝ) ^ o) 0

/-- The per-vertex elevation of createMountainMesh (lines 305-329) at plane
coordinates (x, y): radial mask max(0, 1 − (d/radius)^1.5) (the source's
pow(mask, 1.0) is the identity and is omitted), sentinel −10 outside the
mask, otherwise 4-octave and 6-octave fbm terms plus the ridge term
max(0, 1 − |fbm2·2 − 1|)^1.8·500, each scaled by mask·heightScale. -/
noncomputable def mountainElevation (scale heightScale seed x y : ℝ) : ℝ :=
  let radius := 4500 * scale
  let d := Real.sqrt (x * x + y * y)
  let mask := max 0 (1 - (d / radius) ^ (1.5 : ℝ))
  if mask ≤ 0 then -10
  else
    let n1 := mountainFbm seed (x * 0.001) (y * 0.001) 4
    let n2 := mountainFbm seed (x * 0.005) (y * 0.005) 6
    let ridgeRaw := 1.0 - |mountainFbm seed (x * 0.0006 + 50) (y * 0.0006 + 50) 2 * 2.0 - 1.0|
    let ridge := max 0 ridgeRaw
    n1 * 1200 * mask * heightScale + n2 * 150 * mask * heightScale +
      ridge ^ (1.8 : ℝ) * 500 * mask * heightScale

/-- The segment count of createMountainMesh (line 275):
floor(256·max(0.75, scale)). -/
noncomputable def mountainSegments (scale : ℝ) : ℕ :=
  ⌊256 * max 0.75 scale⌋₊

/-- The per-vertex elevation array produced by createMountainMesh for one
peak: the (segs+1)×(segs+1) vertex lattice of PlaneGeometry(baseSize,
baseSize, segs, segs) — vertex (ix, iy) sits at plane coordinates
(ix·step − baseSize/2, baseSize/2 − iy·step) — mapped through
mountainElevation.  offsetX and offsetZ are accepted (as in the source
signature) but only position the finished mesh, so they do not enter any
elevation. -/
noncomputable def createMountainElevations
    (offsetX offsetZ scale heightScale seed : ℝ) : List ℝ :=
  let baseSize := 10000 * scale
  let segs := mountainSegments scale
  (List.range (segs + 1)).flatMap (fun iy =>
    (List.range (segs + 1)).map (fun ix =>
      mountainElevation scale heightScale seed
        ((ix : ℝ) * (baseSize / segs) - baseSize / 2)
        (baseSize / 2 - (iy : ℝ) * (baseSize / segs))))

/-- Claim C1: Environment.getGroundHeight and Penguin.getGroundHeight agree on
every input, and both equal the spec formula
sin(x·0.05)·cos(z·0.04)·0.4 + sin(x·0.02)·0.2 + sin(w·0.5)·sin(p·5.0)·0.05 +
sin(w·0.2)·0.1 with (wx, wz) the normalization of (1.0, 0.5),
w = x·wx + z·wz and p = x·(−wz) + z·wx. -/
theorem groundHeight_consistent (x z : ℝ) :
    Environment.getGroundHeight x z = Penguin.getGroundHeight x z ∧
    Environment.getGroundHeight x z =
      Real.sin (x * 0.05) * Real.cos (z * 0.04) * 0.4 +
      Real.sin (x * 0.02) * 0.2 +
      Real.sin ((x * (1 / Real.sqrt 1.25) + z * (0.5 / Real.sqrt 1.25)) * 0.5) *
        Real.sin ((x * (-(0.5 / Real.sqrt 1.25)) + z * (1 / Real.sqrt 1.25)) * 5.0) * 0.05 +
      Real.sin ((x * (1 / Real.sqrt 1.25) + z * (0.5 / Real.sqrt 1.25)) * 0.2) * 0.1 := by
  have hlen : Vec2.length ⟨1.0, 0.5⟩ = Real.sqrt 1.25 := by
    unfold Vec2.length
    norm_num
  have hpos : Real.sqrt 1.25 ≠ 0 := by
    have : (0:ℝ) < Real.sqrt 1.25 := Real.sqrt_pos.mpr (by norm_num)
    exact ne_of_gt this
  have hnorm : Vec2.normalize ⟨1.0, 0.5⟩ =
      ⟨1 / Real.sqrt 1.25, 0.5 / Real.sqrt 1.25⟩ := by
    unfold Vec2.normalize
    rw [hlen, if_neg hpos]
    simp only [Vec2.mk.injEq]
    constructor
    · ring
    · ring
  constructor
  · rfl
  · simp only [Environment.getGroundHeight, hnorm]

/-- Helper: a single trail operation keeps the length within the 200 bound. -/
theorem applyTrailOp_length_le (trail : List Footprint) (op : TrailOp)
    (h : trail.length ≤ 200) : (applyTrailOp trail op).length ≤ 200 := by
  cases op with
  | spawn pos isLeft =>
    unfold applyTrailOp spawnFootprint
    simp only [Bool.true_eq_false, if_false]
    by_cases hlen : 200 < (trail ++ [mkFootprint pos isLeft]).length
    · rw [if_pos hlen]
      simp only [List.length_tail, List.length_append, List.length_singleton]
      omega
    · rw [if_neg hlen]
      simp only [List.length_append, List.length_singleton] at hlen ⊢
      omega
  | decay dt =>
    unfold applyTrailOp
    calc (updateFootprints dt trail).length ≤ trail.length :=
          List.length_filterMap_le _ _
      _ ≤ 200 := h

/-- Helper: folding trail operations preserves the 200 bound. -/
theorem foldTrailOps_length_le (ops : List TrailOp) (init : List Footprint)
    (h : init.length ≤ 200) : (ops.foldl applyTrailOp init).length ≤ 200 := by
  induction ops generalizing init with
  | nil => simpa using h
  | cons op ops ih => exact ih _ (applyTrailOp_length_le init op h)

/-- Claim C2: after any sequence of spawnFootprint and update (decay) calls the
trail holds at most 200 footprints, and whenever an insertion would push the
count past 200 the oldest footprint (index 0) is evicted within that same
spawn call. -/
theorem footprintTrail_capacity :
    (∀ ops : List TrailOp, (runTrailOps ops).length ≤ 200) ∧
    (∀ (trail : List Footprint) (pos : Vec3) (isLeft : Bool),
      200 ≤ trail.length →
        spawnFootprint true trail pos isLeft =
          trail.drop 1 ++ [mkFootprint pos isLeft]) := by
  constructor
  · intro ops
    exact foldTrailOps_length_le ops [] (by simp)
  · intro trail pos isLeft h
    unfold spawnFootprint
    simp only [Bool.true_eq_false, if_false]
    have hlen : 200 < (trail ++ [mkFootprint pos isLeft]).length := by
      simp only [List.length_append, List.length_singleton]
      omega
    rw [if_pos hlen]
    cases trail with
    | nil => simp at h
    | cons fp rest => simp

/-- Witness for C2 at concrete inputs: the empty run and an eviction from a
full 200-footprint trail. -/
theorem footprintTrail_capacity_wit :
    (runTrailOps []).length ≤ 200 ∧
    spawnFootprint true (List.replicate 200 (mkFootprint ⟨0, 0, 0⟩ true)) ⟨1, 0, 2⟩ false =
      (List.replicate 200 (mkFootprint ⟨0, 0, 0⟩ true)).drop 1 ++
        [mkFootprint ⟨1, 0, 2⟩ false] :=
  ⟨footprintTrail_capacity.1 [],
   footprintTrail_capacity.2 _ ⟨1, 0, 2⟩ false
     (by simp only [List.length_replicate]; omega)⟩

/-- Claim C5: a decay pass with dt > 0 maps each footprint to opacity
reduced by exactly 0.02·dt and keeps exactly those whose new opacity is
positive, in order (the result is a sublist of the adjusted originals, so a
removed footprint never reappears); every retained footprint's opacity
strictly decreased. -/
theorem footprintDecay_spec (dt : ℚ) (hdt : 0 < dt) (l : List Footprint) :
    updateFootprints dt l =
      (l.map (fun fp => { fp with opacity := fp.opacity - dt * 0.02 })).filter
        (fun fp => 0 < fp.opacity) ∧
    (∀ fp' ∈ updateFootprints dt l, 0 < fp'.opacity ∧
        ∃ fp ∈ l, fp'.opacity = fp.opacity - dt * 0.02 ∧ fp'.opacity < fp.opacity) ∧
    (updateFootprints dt l).Sublist
      (l.map (fun fp => { fp with opacity := fp.opacity - dt * 0.02 })) := by
  have hstruct : updateFootprints dt l =
      (l.map (fun fp => { fp with opacity := fp.opacity - dt * 0.02 })).filter
        (fun fp => 0 < fp.opacity) := by
    induction l with
    | nil => rfl
    | cons fp rest ih =>
      unfold updateFootprints at ih ⊢
      rw [List.filterMap_cons, List.map_cons, List.filter_cons]
      by_cases h : fp.opacity - dt * 0.02 ≤ 0
      · simp only [h, if_true, ih]
        have : ¬ (0 < fp.opacity - dt * 0.02) := not_lt.mpr h
        simp [this]
      · simp only [h, if_false, ih]
        have : (0 : ℚ) < fp.opacity - dt * 0.02 := lt_of_not_le h
        simp [this]
  refine ⟨hstruct, ?_, ?_⟩
  · intro fp' hmem
    unfold updateFootprints at hmem
    obtain ⟨fp, hfp, heq⟩ := List.mem_filterMap.mp hmem
    by_cases h : fp.opacity - dt * 0.02 ≤ 0
    · simp [h] at heq
    · simp only [h, if_false, Option.some.injEq] at heq
      subst heq
      refine ⟨lt_of_not_le h, fp, hfp, rfl, ?_⟩
      have : (0 : ℚ) < dt * 0.02 := by positivity
      linarith
  · rw [hstruct]
    exact List.filter_sublist _

/-- Witness for C5 at dt = 1 on a two-footprint trail. -/
theorem footprintDecay_spec_wit :
    updateFootprints 1 [mkFootprint ⟨0, 0, 0⟩ true, mkFootprint ⟨1, 0, 1⟩ false] =
      ([mkFootprint ⟨0, 0, 0⟩ true, mkFootprint ⟨1, 0, 1⟩ false].map
        (fun fp => { fp with opacity := fp.opacity - 1 * 0.02 })).filter
        (fun fp => 0 < fp.opacity) ∧
    (∀ fp' ∈ updateFootprints 1 [mkFootprint ⟨0, 0, 0⟩ true, mkFootprint ⟨1, 0, 1⟩ false],
        0 < fp'.opacity ∧
        ∃ fp ∈ [mkFootprint ⟨0, 0, 0⟩ true, mkFootprint ⟨1, 0, 1⟩ false],
          fp'.opacity = fp.opacity - 1 * 0.02 ∧ fp'.opacity < fp.opacity) ∧
    (updateFootprints 1 [mkFootprint ⟨0, 0, 0⟩ true, mkFootprint ⟨1, 0, 1⟩ false]).Sublist
      ([mkFootprint ⟨0, 0, 0⟩ true, mkFootprint ⟨1, 0, 1⟩ false].map
        (fun fp => { fp with opacity := fp.opacity - 1 * 0.02 })) :=
  footprintDecay_spec 1 (by decide) _

/-- Claim C8: after every ColonyPenguin.update call, in every state, the
agent's y position equals sin(x·0.1)·cos(z·0.1)·0.5 evaluated at the agent's
post-update (x, z): the vertical placement pass at the end of update pins y,
so the |cos(walkPhase)|·0.03 bob added during a Walking update never reaches
the final y. -/
theorem colonyGroundPin (dt : ℝ) (center : Vec3) (others : List Vec3)
    (now : ℝ) (d : ℝ × ℝ × ℝ) (p : ColonyPenguin) :
    (ColonyPenguin.update dt center others now d p).pos.y =
      Real.sin ((ColonyPenguin.update dt center others now d p).pos.x * 0.1) *
        Real.cos ((ColonyPenguin.update dt center others now d p).pos.z * 0.1) * 0.5 :=
  rfl

/-- Claim C3: a colony agent picks a new state exactly when its elapsed state
time reaches its state duration, and the transition table maps the roll r to:
Idle on [0,0.60) with duration in [2,6); Walking on [0.60,0.85) with duration
in [1.5,4.5) and target facing = current facing plus an offset within
[−0.75,+0.75]; Turning on [0.85,0.95) with duration in [1,3) and target
facing in [0,2π); Looking on [0.95,1) with duration in [2,4) and target head
tilt within [−0.25,+0.25]; the resulting state is always one of the four. -/
theorem colonyStateMachine (dt : ℝ) (center : Vec3) (others : List Vec3)
    (now : ℝ) (r u v : ℝ) (p : ColonyPenguin)
    (hu0 : 0 ≤ u) (hu1 : u < 1) (hv0 : 0 ≤ v) (hv1 : v < 1) :
    (p.timer + dt < p.stateDuration →
      (ColonyPenguin.update dt center others now (r, u, v) p).state = p.state ∧
      (ColonyPenguin.update dt center others now (r, u, v) p).stateDuration =
        p.stateDuration ∧
      (ColonyPenguin.update dt center others now (r, u, v) p).timer =
        p.timer + dt) ∧
    (p.stateDuration ≤ p.timer + dt →
      (ColonyPenguin.update dt center others now (r, u, v) p).state =
        (pickNewState r u v p).state ∧
      (ColonyPenguin.update dt center others now (r, u, v) p).stateDuration =
        (pickNewState r u v p).stateDuration) ∧
    (r < 0.6 → (pickNewState r u v p).state = .idle ∧
      (pickNewState r u v p).stateDuration ∈ Set.Ico (2 : ℝ) 6) ∧
    (0.6 ≤ r → r < 0.85 → (pickNewState r u v p).state = .walking ∧
      (pickNewState r u v p).stateDuration ∈ Set.Ico (1.5 : ℝ) 4.5 ∧
      (pickNewState r u v p).targetRotation - p.currentRotation ∈
        Set.Icc (-0.75 : ℝ) 0.75) ∧
    (0.85 ≤ r → r < 0.95 → (pickNewState r u v p).state = .turning ∧
      (pickNewState r u v p).stateDuration ∈ Set.Ico (1 : ℝ) 3 ∧
      (pickNewState r u v p).targetRotation ∈ Set.Ico 0 (2 * Real.pi)) ∧
    (0.95 ≤ r → (pickNewState r u v p).state = .looking ∧
      (pickNewState r u v p).stateDuration ∈ Set.Ico (2 : ℝ) 4 ∧
      (pickNewState r u v p).headTiltTarget ∈ Set.Icc (-0.25 : ℝ) 0.25) ∧
    ((pickNewState r u v p).state = .idle ∨
      (pickNewState r u v p).state = .walking ∨
      (pickNewState r u v p).state = .turning ∨
      (pickNewState r u v p).state = .looking) := by
  obtain ⟨pos, rX, rY, rZ, st, tm, du, wt, ws, ms, tr, cr, ht, htt, op, vis⟩ := p
  refine ⟨?_, ?_, ?_, ?_, ?_, ?_, ?_⟩
  · intro h
    simp only [ColonyPenguin.update]
    rw [if_neg (not_le.mpr h)]
    cases st <;>
      simp [updateIdle, updateWalking, updateTurning, updateLooking]
  · intro h
    simp only [ColonyPenguin.update]
    rw [if_pos h]
    unfold pickNewState
    split_ifs <;>
      simp [updateIdle, updateWalking, updateTurning, updateLooking]
  · intro hr
    unfold pickNewState
    rw [if_pos hr]
    refine ⟨rfl, ?_⟩
    simp only [Set.mem_Ico]
    constructor
    · linarith
    · linarith
  · intro hr0 hr1
    unfold pickNewState
    rw [if_neg (not_lt.mpr hr0), if_pos hr1]
    refine ⟨rfl, ?_, ?_⟩
    · simp only [Set.mem_Ico]
      constructor
      · linarith
      · linarith
    · simp only [Set.mem_Icc]
      constructor
      · linarith
      · linarith
  · intro hr0 hr1
    unfold pickNewState
    rw [if_neg (by linarith : ¬ r < 0.6), if_neg (not_lt.mpr hr0), if_pos hr1]
    refine ⟨rfl, ?_, ?_⟩
    · simp only [Set.mem_Ico]
      constructor
      · linarith
      · linarith
    · simp only [Set.mem_Ico]
      constructor
      · exact mul_nonneg (mul_nonneg hv0 Real.pi_pos.le) (by norm_num)
      · nlinarith [Real.pi_pos]
  · intro hr
    unfold pickNewState
    rw [if_neg (by linarith : ¬ r < 0.6), if_neg (by linarith : ¬ r < 0.85),
        if_neg (not_lt.mpr (by linarith : (0.95 : ℝ) ≤ r))]
    refine ⟨rfl, ?_, ?_⟩
    · simp only [Set.mem_Ico]
      constructor
      · linarith
      · linarith
    · simp only [Set.mem_Icc]
      constructor
      · linarith
      · linarith
  · unfold pickNewState
    split_ifs <;> simp

/-- Witness for C3 at concrete inputs: r = 0.7, u = v = 0.5 on the concrete
walking agent with dt = 1. -/
theorem colonyStateMachine_wit :
    ((walkAgent.timer + 1 < walkAgent.stateDuration →
      (ColonyPenguin.update 1 ⟨0, 0, 0⟩ [] 0 (0.7, 0.5, 0.5) walkAgent).state =
        walkAgent.state ∧
      (ColonyPenguin.update 1 ⟨0, 0, 0⟩ [] 0 (0.7, 0.5, 0.5) walkAgent).stateDuration =
        walkAgent.stateDuration ∧
      (ColonyPenguin.update 1 ⟨0, 0, 0⟩ [] 0 (0.7, 0.5, 0.5) walkAgent).timer =
        walkAgent.timer + 1) ∧
    (walkAgent.stateDuration ≤ walkAgent.timer + 1 →
      (ColonyPenguin.update 1 ⟨0, 0, 0⟩ [] 0 (0.7, 0.5, 0.5) walkAgent).state =
        (pickNewState 0.7 0.5 0.5 walkAgent).state ∧
      (ColonyPenguin.update 1 ⟨0, 0, 0⟩ [] 0 (0.7, 0.5, 0.5) walkAgent).stateDuration =
        (pickNewState 0.7 0.5 0.5 walkAgent).stateDuration) ∧
    ((0.7 : ℝ) < 0.6 → (pickNewState 0.7 0.5 0.5 walkAgent).state = .idle ∧
      (pickNewState 0.7 0.5 0.5 walkAgent).stateDuration ∈ Set.Ico (2 : ℝ) 6) ∧
    ((0.6 : ℝ) ≤ 0.7 → (0.7 : ℝ) < 0.85 →
      (pickNewState 0.7 0.5 0.5 walkAgent).state = .walking ∧
      (pickNewState 0.7 0.5 0.5 walkAgent).stateDuration ∈ Set.Ico (1.5 : ℝ) 4.5 ∧
      (pickNewState 0.7 0.5 0.5 walkAgent).targetRotation - walkAgent.currentRotation ∈
        Set.Icc (-0.75 : ℝ) 0.75) ∧
    ((0.85 : ℝ) ≤ 0.7 → (0.7 : ℝ) < 0.95 →
      (pickNewState 0.7 0.5 0.5 walkAgent).state = .turning ∧
      (pickNewState 0.7 0.5 0.5 walkAgent).stateDuration ∈ Set.Ico (1 : ℝ) 3 ∧
      (pickNewState 0.7 0.5 0.5 walkAgent).targetRotation ∈ Set.Ico 0 (2 * Real.pi)) ∧
    ((0.95 : ℝ) ≤ 0.7 → (pickNewState 0.7 0.5 0.5 walkAgent).state = .looking ∧
      (pickNewState 0.7 0.5 0.5 walkAgent).stateDuration ∈ Set.Ico (2 : ℝ) 4 ∧
      (pickNewState 0.7 0.5 0.5 walkAgent).headTiltTarget ∈ Set.Icc (-0.25 : ℝ) 0.25) ∧
    ((pickNewState 0.7 0.5 0.5 walkAgent).state = .idle ∨
      (pickNewState 0.7 0.5 0.5 walkAgent).state = .walking ∨
      (pickNewState 0.7 0.5 0.5 walkAgent).state = .turning ∨
      (pickNewState 0.7 0.5 0.5 walkAgent).state = .looking)) :=
  colonyStateMachine 1 ⟨0, 0, 0⟩ [] 0 0.7 0.5 0.5 walkAgent
    (by norm_num) (by norm_num) (by norm_num) (by norm_num)

/-- Claim C4 (amended): for one update(dt) call on an agent that is and stays
in the Walking state, the x and z components of the position change equal
moveSpeed·dt times the corresponding components of the normalization of
(forward + separation + cohesion); the y component is overwritten by the
vertical placement pass at the end of update. -/
theorem walkingIntegration_xz (dt : ℝ) (center : Vec3) (others : List Vec3)
    (now : ℝ) (d : ℝ × ℝ × ℝ) (p : ColonyPenguin)
    (hst : p.state = .walking) (hnp : p.timer + dt < p.stateDuration) :
    (ColonyPenguin.update dt center others now d p).pos.x =
      p.pos.x +
        (walkDirection (lerp p.currentRotation p.targetRotation (dt * 2))
          p.pos center others).x * (p.moveSpeed * dt) ∧
    (ColonyPenguin.update dt center others now d p).pos.z =
      p.pos.z +
        (walkDirection (lerp p.currentRotation p.targetRotation (dt * 2))
          p.pos center others).z * (p.moveSpeed * dt) := by
  obtain ⟨pos, rX, rY, rZ, st, tm, du, wt, ws, ms, tr, cr, ht, htt, op, vis⟩ := p
  simp only at hst
  subst hst
  simp only [ColonyPenguin.update]
  rw [if_neg (not_le.mpr hnp)]
  simp [updateWalking, Vec3.add, Vec3.smul]

/-- Witness for C4's amended theorem on the concrete walking agent. -/
theorem walkingIntegration_xz_wit :
    (ColonyPenguin.update 1 ⟨0, 0, 0⟩ [] 0 (0, 0, 0) walkAgent).pos.x =
      walkAgent.pos.x +
        (walkDirection (lerp walkAgent.currentRotation walkAgent.targetRotation (1 * 2))
          walkAgent.pos ⟨0, 0, 0⟩ []).x * (walkAgent.moveSpeed * 1) ∧
    (ColonyPenguin.update 1 ⟨0, 0, 0⟩ [] 0 (0, 0, 0) walkAgent).pos.z =
      walkAgent.pos.z +
        (walkDirection (lerp walkAgent.currentRotation walkAgent.targetRotation (1 * 2))
          walkAgent.pos ⟨0, 0, 0⟩ []).z * (walkAgent.moveSpeed * 1) :=
  walkingIntegration_xz 1 ⟨0, 0, 0⟩ [] 0 (0, 0, 0) walkAgent rfl
    (by norm_num [walkAgent])

/-- Counterexample for C4 as stated: at the concrete walking agent the
y component of the position change does not equal the y component of
moveSpeed·dt times the normalized steering vector, because the vertical
placement pass overwrites y. -/
theorem walkingIntegration_cex :
    ¬ ((ColonyPenguin.update 1 ⟨0, 0, 0⟩ [] 0 (0, 0, 0) walkAgent).pos.y =
        walkAgent.pos.y +
          (walkDirection (lerp walkAgent.currentRotation walkAgent.targetRotation (1 * 2))
            walkAgent.pos ⟨0, 0, 0⟩ []).y * (walkAgent.moveSpeed * 1)) := by
  have hlerp : lerp (Real.pi / 2) (Real.pi / 2) (1 * 2) = Real.pi / 2 := by
    simp [lerp]
  have hdir : walkDirection (Real.pi / 2) ⟨0, 0, 0⟩ ⟨0, 0, 0⟩ [] = ⟨1, 0, 0⟩ := by
    unfold walkDirection forwardVec separationVec cohesionVec
    norm_num [Vec3.sub, Vec3.length, Vec3.add, Vec3.smul, Vec3.normalize,
      Real.sin_pi_div_two, Real.cos_pi_div_two]
  have hsin : (0 : ℝ) < Real.sin 0.1 := by
    refine Real.sin_pos_of_pos_of_lt_pi (by norm_num) ?_
    nlinarith [Real.pi_gt_three]
  intro hcl
  simp only [walkAgent, ColonyPenguin.update, updateWalking] at hcl
  rw [if_neg (by norm_num : ¬ ((2 : ℝ) ≤ 0 + 1))] at hcl
  simp only [hlerp, hdir, Vec3.add, Vec3.smul] at hcl
  norm_num at hcl
  nlinarith [hsin, hcl]

/-- Counterexample for C9 as stated: two update calls with identical dt and
identical injected draws but different wall-clock values produce different
body-roll rotations on a Turning agent, because updateTurning reads
Date.now(). -/
theorem clockDependence_cex :
    (ColonyPenguin.update 1 ⟨0, 0, 0⟩ [] 0 (0, 0, 0) turnAgent).rotZ ≠
      (ColonyPenguin.update 1 ⟨0, 0, 0⟩ [] (50 * Real.pi) (0, 0, 0) turnAgent).rotZ := by
  have h1 : (ColonyPenguin.update 1 ⟨0, 0, 0⟩ [] 0 (0, 0, 0) turnAgent).rotZ = 0 := by
    simp only [turnAgent, ColonyPenguin.update, updateTurning]
    rw [if_neg (by norm_num : ¬ ((2 : ℝ) ≤ 0 + 1))]
    norm_num
  have hsin : Real.sin (50 * Real.pi * 0.01) = 1 := by
    rw [show (50 : ℝ) * Real.pi * 0.01 = Real.pi / 2 by ring]
    exact Real.sin_pi_div_two
  have h2 : (ColonyPenguin.update 1 ⟨0, 0, 0⟩ [] (50 * Real.pi) (0, 0, 0) turnAgent).rotZ =
      0.03 := by
    simp only [turnAgent, ColonyPenguin.update, updateTurning]
    rw [if_neg (by norm_num : ¬ ((2 : ℝ) ≤ 0 + 1))]
    simp [hsin]
  rw [h1, h2]
  norm_num

/-- Claim C9 (amended): the colony agent update is a function of the prior
state, dt and the injected draws on every field except the body roll rotZ:
two agents equal except possibly in rotZ, updated with the same dt, colony
center, neighbor positions and draws but arbitrary wall-clock values, stay
equal except possibly in rotZ — in particular positions, facing (y-rotation)
and head pitch are wall-clock independent, while the Idle and Turning roll
wobble reads Date.now(). -/
theorem clockIndependent_core (dt : ℝ) (center : Vec3) (others : List Vec3)
    (now1 now2 : ℝ) (d : ℝ × ℝ × ℝ) (a b : ColonyPenguin)
    (h : eqExceptRoll a b) :
    eqExceptRoll (ColonyPenguin.update dt center others now1 d a)
      (ColonyPenguin.update dt center others now2 d b) := by
  obtain ⟨⟨ax, ay, az⟩, rX, rY, arZ, st, tm, du, wt, ws, ms, tr, cr, ht, htt, op, avis⟩ := a
  obtain ⟨⟨bx, bby, bz⟩, brX, brY, brZ, bst, btm, bdu, bwt, bws, bms, btr, bcr, bht, bhtt, bop, bvis⟩ := b
  obtain ⟨rfl, rfl, rfl, rfl, rfl, rfl, rfl, rfl, rfl, rfl, rfl, rfl, rfl, rfl, rfl, rfl, hvis⟩ := h
  simp only [ColonyPenguin.update, pickNewState]
  split_ifs <;>
    cases st <;>
      simp_all [eqExceptRoll, updateIdle, updateWalking, updateTurning, updateLooking]

/-- Witness for C9's amended theorem on the concrete turning agent with two
different wall-clock values. -/
theorem clockIndependent_core_wit :
    eqExceptRoll (ColonyPenguin.update 1 ⟨0, 0, 0⟩ [] 0 (0, 0, 0) turnAgent)
      (ColonyPenguin.update 1 ⟨0, 0, 0⟩ [] (50 * Real.pi) (0, 0, 0) turnAgent) :=
  clockIndependent_core 1 ⟨0, 0, 0⟩ [] 0 (50 * Real.pi) (0, 0, 0) turnAgent turnAgent
    (by simp [eqExceptRoll])

/-- Claim C6: the fading phase applies the same opacity
1 − smoothstep(d, 5, 30) to every colony agent, where d is the player's
distance from the colony origin; opacity is 1.0 at d = 5, 0.0 at d = 30 and
0.5 at d = 17.5, and an agent is marked non-visible exactly when its applied
opacity is at or below 0.01. -/
theorem colonyFade_spec :
    (∀ (playerPos : Vec3) (penguins : List ColonyPenguin),
      ∀ q ∈ ColonyManager.applyFade playerPos penguins,
        q.opacity = colonyOpacity playerPos ∧ (¬ q.visible ↔ q.opacity ≤ 0.01)) ∧
    (∀ p : Vec3, p.length = 5 → colonyOpacity p = 1) ∧
    (∀ p : Vec3, p.length = 30 → colonyOpacity p = 0) ∧
    (∀ p : Vec3, p.length = 17.5 → colonyOpacity p = 0.5) := by
  refine ⟨?_, ?_, ?_, ?_⟩
  · intro playerPos penguins q hq
    obtain ⟨q0, hq0, rfl⟩ := List.mem_map.mp hq
    refine ⟨rfl, ?_⟩
    show ¬ (0.01 < colonyOpacity playerPos) ↔ _
    exact not_lt
  · intro p hp
    unfold colonyOpacity smoothstep
    rw [hp]
    norm_num
  · intro p hp
    unfold colonyOpacity smoothstep
    rw [hp]
    norm_num
  · intro p hp
    unfold colonyOpacity smoothstep
    rw [hp]
    norm_num

/-- Witness for C6 at concrete inputs: a singleton colony and player
positions at distances 5, 30 and 17.5 from the origin. -/
theorem colonyFade_spec_wit :
    ((setOpacity (colonyOpacity ⟨0, 0, 0⟩) turnAgent).opacity =
        colonyOpacity ⟨0, 0, 0⟩ ∧
      (¬ (setOpacity (colonyOpacity ⟨0, 0, 0⟩) turnAgent).visible ↔
        (setOpacity (colonyOpacity ⟨0, 0, 0⟩) turnAgent).opacity ≤ 0.01)) ∧
    colonyOpacity ⟨5, 0, 0⟩ = 1 ∧
    colonyOpacity ⟨30, 0, 0⟩ = 0 ∧
    colonyOpacity ⟨17.5, 0, 0⟩ = 0.5 := by
  have h5 : (Vec3.length ⟨5, 0, 0⟩) = 5 := by
    unfold Vec3.length
    rw [show (5 * 5 + 0 * 0 + 0 * 0 : ℝ) = 5 ^ 2 by norm_num]
    exact Real.sqrt_sq (by norm_num)
  have h30 : (Vec3.length ⟨30, 0, 0⟩) = 30 := by
    unfold Vec3.length
    rw [show (30 * 30 + 0 * 0 + 0 * 0 : ℝ) = 30 ^ 2 by norm_num]
    exact Real.sqrt_sq (by norm_num)
  have h17 : (Vec3.length ⟨17.5, 0, 0⟩) = 17.5 := by
    unfold Vec3.length
    rw [show (17.5 * 17.5 + 0 * 0 + 0 * 0 : ℝ) = 17.5 ^ 2 by norm_num]
    exact Real.sqrt_sq (by norm_num)
  exact ⟨colonyFade_spec.1 ⟨0, 0, 0⟩ [turnAgent]
      (setOpacity (colonyOpacity ⟨0, 0, 0⟩) turnAgent)
      (by simp [ColonyManager.applyFade]),
    colonyFade_spec.2.1 _ h5, colonyFade_spec.2.2.1 _ h30,
    colonyFade_spec.2.2.2 _ h17⟩

/-- Counterexample for C7 as stated: a decay pass with dt = −1 on a footprint
of opacity 1/2 leaves opacity 0.52 — the negative dt is silently integrated
backward (the opacity increases), not rejected or clamped to a dt = 0
no-op. -/
theorem negativeDt_cex :
    (updateFootprints (-1) [fpHalf]).map Footprint.opacity = [0.52] ∧
    (1 / 2 : ℚ) < 0.52 := by
  constructor
  · norm_num [updateFootprints, fpHalf, List.filterMap_cons, List.filterMap_nil]
  · norm_num

/-- Claim C7 (amended): a negative dt is neither rejected nor clamped: the
footprint decay pass keeps every footprint of positive opacity and increases
its opacity by exactly 0.02·|dt|, and the colony agent update decreases the
elapsed state time by |dt| (when no transition fires) — update silently
integrates backward. -/
theorem negativeDt_backward :
    (∀ dt : ℚ, dt < 0 → ∀ l : List Footprint, ∀ fp ∈ l, 0 < fp.opacity →
      { fp with opacity := fp.opacity - dt * 0.02 } ∈ updateFootprints dt l ∧
      fp.opacity < fp.opacity - dt * 0.02) ∧
    (∀ (dt : ℝ) (center : Vec3) (others : List Vec3) (now : ℝ)
      (d : ℝ × ℝ × ℝ) (p : ColonyPenguin), dt < 0 →
      p.timer + dt < p.stateDuration →
      (ColonyPenguin.update dt center others now d p).timer = p.timer + dt ∧
      (ColonyPenguin.update dt center others now d p).timer < p.timer) := by
  constructor
  · intro dt hdt l fp hfp hop
    have hkeep : ¬ (fp.opacity - dt * 0.02 ≤ 0) := by
      have : dt * 0.02 < 0 := by
        have : (0 : ℚ) < 0.02 := by norm_num
        exact mul_neg_of_neg_of_pos hdt this
      linarith
    constructor
    · refine List.mem_filterMap.mpr ⟨fp, hfp, ?_⟩
      simp only [hkeep, if_false]
    · have : dt * 0.02 < 0 := by
        have : (0 : ℚ) < 0.02 := by norm_num
        exact mul_neg_of_neg_of_pos hdt this
      linarith
  · intro dt center others now d p hdt hnp
    obtain ⟨pos, rX, rY, rZ, st, tm, du, wt, ws, ms, tr, cr, ht, htt, op, vis⟩ := p
    simp only [ColonyPenguin.update]
    rw [if_neg (not_le.mpr hnp)]
    constructor
    · cases st <;>
        simp [updateIdle, updateWalking, updateTurning, updateLooking]
    · cases st <;>
        simp [updateIdle, updateWalking, updateTurning, updateLooking] <;>
        linarith

/-- Witness for C7's amended theorem at dt = −1 on a concrete footprint and
the concrete turning agent. -/
theorem negativeDt_backward_wit :
    ({ fpHalf with opacity := fpHalf.opacity - (-1) * 0.02 } ∈
        updateFootprints (-1) [fpHalf] ∧
      fpHalf.opacity < fpHalf.opacity - (-1) * 0.02) ∧
    ((ColonyPenguin.update (-1) ⟨0, 0, 0⟩ [] 0 (0, 0, 0) turnAgent).timer =
        turnAgent.timer + (-1) ∧
      (ColonyPenguin.update (-1) ⟨0, 0, 0⟩ [] 0 (0, 0, 0) turnAgent).timer <
        turnAgent.timer) :=
  ⟨negativeDt_backward.1 (-1) (by norm_num) [fpHalf] fpHalf (by simp)
      (by norm_num [fpHalf]),
   negativeDt_backward.2 (-1) ⟨0, 0, 0⟩ [] 0 (0, 0, 0) turnAgent (by norm_num)
      (by norm_num [turnAgent])⟩

/-- Claim C10: the per-vertex elevation array of a mountain mesh is a pure
function of scale, heightScale, seed and the vertex lattice alone: two
generations with identical parameters — even with different mesh offsets,
which only place the finished mesh in the scene — produce identical
elevation arrays, with no other source of randomness in the deformation. -/
theorem mountainDeterministic
    (offsetX offsetZ offsetX' offsetZ' scale heightScale seed : ℝ) :
    createMountainElevations offsetX offsetZ scale heightScale seed =
      createMountainElevations offsetX' offsetZ' scale heightScale seed :=
  rfl
